import Mathlib

/-!
Shallow embedding of the client-side i18n runtime in `src/i18n.js`.

JSON values delivered by `fetchJson` are modelled by `JValue`; JavaScript
truthiness, own-property lookup (including string and array indexing),
dotted-path traversal (`getByPath`), the translation resolver (`resolve`),
the DOM application pass (`applyTranslations`), the UI update
(`updateLangUi`) and the loader (`setLang`) are translated from the source.
The DOM is modelled as a flat collection of marked elements plus the
document title, the description meta element and the document language
attribute; fetch, storage and global-assignment outcomes are inputs
supplied by an environment record.
-/

namespace I18n

/-- JSON values as delivered by `fetchJson` (`res.json()`). -/
inductive JValue where
  | str (s : String)
  | num (n : Int)
  | bool (b : Bool)
  | null
  | arr (elems : List JValue)
  | obj (fields : List (String × JValue))

/-- JavaScript truthiness of a JSON value. -/
def truthy : JValue → Bool
  | .str s => !s.data.isEmpty
  | .num n => n != 0
  | .bool b => b
  | .null => false
  | .arr _ => true
  | .obj _ => true

/-- JavaScript truthiness of a string: nonempty. -/
def strTruthy (s : String) : Bool := !s.data.isEmpty

/-- Split a character list at every occurrence of `sep`, keeping empty pieces,
as `String.prototype.split` does with a one-character separator. -/
def splitCharList (sep : Char) : List Char → List (List Char)
  | [] => [[]]
  | c :: rest =>
    match splitCharList sep rest with
    | h :: t => if c = sep then [] :: h :: t else (c :: h) :: t
    | [] => if c = sep then [[], []] else [[c]]

/-- `String.prototype.split` with a one-character separator. -/
def splitChar (sep : Char) (s : String) : List String :=
  (splitCharList sep s.data).map String.mk

/-- Characters removed by `String.prototype.trim`. -/
def isJsSpace (c : Char) : Bool :=
  c = ' ' || c = '\t' || c = '\n' || c = '\r' || c = '\x0b' || c = '\x0c' ||
  c = '\u00A0' || c = '\uFEFF' || c = '\u2028' || c = '\u2029'

/-- `String.prototype.trim`. -/
def jsTrim (s : String) : String :=
  String.mk (((s.data.dropWhile isJsSpace).reverse.dropWhile isJsSpace).reverse)

/-- Nonempty after trimming (`v.trim().length > 0`). -/
def trimmedNonempty (s : String) : Bool := strTruthy (jsTrim s)

/-- Own-field lookup in a JSON object: `hasOwnProperty` plus access. -/
def lookupField : List (String × JValue) → String → Option JValue
  | [], _ => none
  | (k, v) :: rest, name => if k = name then some v else lookupField rest name

/-- Decimal value of a digit list, most significant digit first. -/
def digitsVal : List Char → Nat → Nat
  | [], acc => acc
  | c :: rest, acc => digitsVal rest (acc * 10 + (c.toNat - 48))

/-- A canonical array-index property name: nonempty, all digits, and no
leading zero except for the single digit 0. -/
def canonIndex (part : String) : Option Nat :=
  match part.data with
  | [] => none
  | c :: rest =>
    if (c :: rest).all Char.isDigit && (c != '0' || rest.isEmpty) then
      some (digitsVal (c :: rest) 0)
    else none

/-- The value of an own property; `none` when `hasOwnProperty` is false.
Plain objects expose their explicit fields; arrays and strings additionally
expose canonical element indices and a numeric `length`, exactly as the
JavaScript `Object.prototype.hasOwnProperty.call(acc, part) ? acc[part] : undefined`
step of `getByPath` does. Numbers, booleans and null have no own properties. -/
def getOwn : JValue → String → Option JValue
  | .obj fields, part => lookupField fields part
  | .arr elems, part =>
    if part = "length" then some (.num (Int.ofNat elems.length))
    else
      match canonIndex part with
      | some i => elems.get? i
      | none => none
  | .str s, part =>
    if part = "length" then some (.num (Int.ofNat s.data.length))
    else
      match canonIndex part with
      | some i => (s.data.get? i).map (fun c => .str (String.mk [c]))
      | none => none
  | _, _ => none

/-- One reduce step of `getByPath`:
`(acc && Object.prototype.hasOwnProperty.call(acc, part) ? acc[part] : undefined)`. -/
def pathStep (acc : Option JValue) (part : String) : Option JValue :=
  match acc with
  | some v => if truthy v then getOwn v part else none
  | none => none

/-- `getByPath` from src/i18n.js lines 20-23. -/
def getByPath (obj : JValue) (path : String) : Option JValue :=
  if !truthy obj || !strTruthy path then none
  else (splitChar '.' path).foldl pathStep (some obj)

/-- The empty dictionary `{}`. -/
def emptyObj : JValue := .obj []

/-- JavaScript `x || y` on JSON values. -/
def jsOr (x y : JValue) : JValue := if truthy x then x else y

/-- Fallback half of `resolve` inside `applyTranslations`
(src/i18n.js lines 50-53). -/
def resolveFb (fallbackDict : JValue) (key : String) : Option String :=
  if truthy fallbackDict then
    match getByPath fallbackDict key with
    | some (.str f) => if trimmedNonempty f then some f else none
    | _ => none
  else none

/-- `resolve` inside `applyTranslations` (src/i18n.js lines 46-55). -/
def resolve (dict fallbackDict : JValue) (key : String) : Option String :=
  if !strTruthy key then none
  else
    match getByPath dict key with
    | some (.str v) => if trimmedNonempty v then some v else resolveFb fallbackDict key
    | _ => resolveFb fallbackDict key

/-- Modelled from the text of claim C1: a traversal that continues at a
segment only when the current value is a mapping having the segment as an
explicit own key. -/
def specTraverse : JValue → List String → Option JValue
  | v, [] => some v
  | .obj fields, p :: ps =>
    match lookupField fields p with
    | some w => specTraverse w ps
    | none => none
  | _, _ :: _ => none

/-- Final-value test shared by the resolver descriptions: a string value
that is nonempty after trimming. -/
def specStrHit : Option JValue → Option String
  | some (.str v) => if trimmedNonempty v then some v else none
  | _ => none

/-- The resolver exactly as claim C1 words it: mapping-only traversal of the
primary, then the same traversal of the fallback, else unresolved. -/
def specResolve (dict fallbackDict : JValue) (key : String) : Option String :=
  if !strTruthy key then none
  else
    let segs := splitChar '.' key
    match specStrHit (specTraverse dict segs) with
    | some v => some v
    | none => specStrHit (specTraverse fallbackDict segs)

/-- Own-property traversal: continues at a segment only when the current
value is truthy and has the segment as an own property. -/
def ownTraverse : JValue → List String → Option JValue
  | v, [] => some v
  | v, p :: ps =>
    if truthy v then
      match getOwn v p with
      | some w => ownTraverse w ps
      | none => none
    else none

/-- One dictionary side of the amended resolver of claim C1. -/
def ownStrHit (d : JValue) (segs : List String) : Option String :=
  if truthy d then specStrHit (ownTraverse d segs) else none

/-- The amended resolver of claim C1: traversal continues at a segment when
the current value is truthy and has the segment as an own property —
mappings by explicit own key, strings and arrays also by canonical element
index or length. -/
def amendedResolve (dict fallbackDict : JValue) (key : String) : Option String :=
  if !strTruthy key then none
  else
    let segs := splitChar '.' key
    match ownStrHit dict segs with
    | some v => some v
    | none => ownStrHit fallbackDict segs

/-- A DOM element: current text content, current inner HTML, and the
attribute list (which includes the binding markers themselves). -/
structure Elem where
  text : String
  innerHTML : String
  attrs : List (String × String)

/-- `getAttribute`: `none` models the null returned for an absent attribute. -/
def lookupAttr : List (String × String) → String → Option String
  | [], _ => none
  | (k, v) :: rest, name => if k = name then some v else lookupAttr rest name

/-- `setAttribute` on an attribute list: replace the existing entry or append. -/
def setAssoc : List (String × String) → String → String → List (String × String)
  | [], name, v => [(name, v)]
  | (k, w) :: rest, name, v =>
    if k = name then (name, v) :: rest else (k, w) :: setAssoc rest name v

/-- The document: language attribute, title, the description meta element
(`none` when the element is absent, otherwise its content), and the marked
elements in document order. -/
structure Doc where
  docLang : String
  title : String
  metaDescription : Option String
  elems : List Elem

/-- Resolution of an optional key: `resolve(el.getAttribute(...))`, where an
absent attribute gives null and `resolve` rejects falsy keys. -/
def resolveAttrKey (res : String → Option String) : Option String → Option String
  | some k => res k
  | none => none

/-- The `data-i18n` pass (src/i18n.js lines 68-72) on one element. -/
def textStep (res : String → Option String) (el : Elem) : Elem :=
  match resolveAttrKey res (lookupAttr el.attrs "data-i18n") with
  | some v => { el with text := v }
  | none => el

/-- The `data-i18n-html` pass (src/i18n.js lines 74-78) on one element. -/
def htmlStep (res : String → Option String) (el : Elem) : Elem :=
  match resolveAttrKey res (lookupAttr el.attrs "data-i18n-html") with
  | some v => { el with innerHTML := v }
  | none => el

/-- Parsing of a `data-i18n-attr` marker value (src/i18n.js lines 82-90):
split on semicolons, trim each piece, drop empty pieces, split each piece on
the first colon into an attribute name and a key, trim both, and drop the
pair when either is missing or empty. -/
def parsePairs (spec : String) : List (String × String) :=
  (((splitChar ';' spec).map jsTrim).filter (fun s => strTruthy s)).filterMap
    (fun pair =>
      let parts := splitChar ':' pair
      let attr := jsTrim ((parts.get? 0).getD "")
      let key := jsTrim ((parts.get? 1).getD "")
      if strTruthy attr && strTruthy key then some (attr, key) else none)

/-- One attribute write of the `data-i18n-attr` pass: set the named
attribute when the key resolves, otherwise leave the list unchanged. -/
def attrWrite (res : String → Option String) (ats : List (String × String))
    (p : String × String) : List (String × String) :=
  match res p.2 with
  | some v => setAssoc ats p.1 v
  | none => ats

/-- The `data-i18n-attr` pass (src/i18n.js lines 80-94) on one element: the
marker value is read once (`|| ''` for an absent marker), then each parsed
pair sets its attribute in order. -/
def attrStep (res : String → Option String) (el : Elem) : Elem :=
  { el with
    attrs :=
      (parsePairs ((lookupAttr el.attrs "data-i18n-attr").getD "")).foldl
        (attrWrite res) el.attrs }

/-- The document-title pass (src/i18n.js lines 57-60). -/
def titlePass (res : String → Option String) (doc : Doc) : Doc :=
  match res "meta.title" with
  | some t => { doc with title := t }
  | none => doc

/-- The description-meta pass (src/i18n.js lines 62-66): writes only when
the key resolves and the meta element exists. -/
def metaPass (res : String → Option String) (doc : Doc) : Doc :=
  match res "meta.description" with
  | some dsc =>
    match doc.metaDescription with
    | some _ => { doc with metaDescription := some dsc }
    | none => doc
  | none => doc

/-- `applyTranslations` (src/i18n.js lines 45-95): document title, then the
description meta content, then the text, HTML and attribute passes over the
marked elements, in source order. -/
def applyTranslations (dict fallbackDict : JValue) (doc : Doc) : Doc :=
  let doc2 := metaPass (resolve dict fallbackDict) (titlePass (resolve dict fallbackDict) doc)
  { doc2 with
    elems :=
      ((doc2.elems.map (textStep (resolve dict fallbackDict))).map
        (htmlStep (resolve dict fallbackDict))).map
        (attrStep (resolve dict fallbackDict)) }

/-- `updateLangUi` (src/i18n.js lines 101-108): set the document language
attribute and the `aria-pressed` state of every switch control. -/
def updateLangUi (lang : String) (doc : Doc) : Doc :=
  if !strTruthy lang then doc
  else
    { doc with
      docLang := lang,
      elems := doc.elems.map (fun btn =>
        match lookupAttr btn.attrs "data-set-lang" with
        | some v =>
          { btn with
            attrs := setAssoc btn.attrs "aria-pressed"
              (if v = lang then "true" else "false") }
        | none => btn) }

/-- `DEFAULT_LANG` (src/i18n.js line 5). -/
def DEFAULT_LANG : String := "hu"

/-- `SUPPORTED` (src/i18n.js line 6). -/
def SUPPORTED : List String := ["hu", "it"]

/-- `getI18nBasePath` (src/i18n.js lines 28-37): the try body never throws,
so the relative path is always returned. -/
def getI18nBasePath : String := "./i18n/"

/-- The candidate base paths tried by `setLang` (src/i18n.js line 121). -/
def bases : List String := [getI18nBasePath, "./", "/i18n/"]

/-- Ambient outcomes: the result of `fetchJson` per URL (an error covers a
network failure, a non-ok HTTP status, or an unparsable body), whether
`localStorage.setItem` succeeds, and whether assigning to `window` succeeds. -/
structure Env where
  fetch : String → Except String JValue
  storageOk : Bool
  assignOk : Bool

/-- `fetchJson` (src/i18n.js lines 39-43) as seen through the environment. -/
def fetchJson (env : Env) (url : String) : Except String JValue := env.fetch url

/-- `localStorage.setItem(STORAGE_KEY, lang)` as an operation that may throw. -/
def storageSetItem (env : Env) : Except String Unit :=
  if env.storageOk then .ok () else .error "storage unavailable"

/-- The fetch loop over candidate bases (src/i18n.js lines 125-136 and the
analogous loops at 143-154 and 162-171): each failed fetch is caught and the
loop breaks at the first resolved value, truthy or not. -/
def tryBases (env : Env) (name : String) : List String → Option JValue
  | [] => none
  | b :: rest =>
    match fetchJson env (b ++ name ++ ".json") with
    | .ok d => some d
    | .error _ => tryBases env name rest

/-- Mutable page state threaded through `setLang` calls: the persisted
preference, the `__lastDict` and `__lastFallback` variables (src/i18n.js
lines 97-99), whether `window.i18n.refresh` and `window.i18n.setLang` have
been installed, and the document. -/
structure St where
  stored : Option String
  lastDict : Option JValue
  lastFallback : Option JValue
  installed : Bool
  doc : Doc

/-- Page state at script start: nothing loaded, no global API installed. -/
def initialState (stored : Option String) (doc : Doc) : St :=
  { stored := stored, lastDict := none, lastFallback := none,
    installed := false, doc := doc }

/-- The normalization at the top of `setLang` (src/i18n.js line 112). -/
def normLang (lang : String) : String :=
  if SUPPORTED.contains lang then lang else DEFAULT_LANG

/-- The `if (!dict)` branch of `setLang` (src/i18n.js lines 138-158): when no
truthy primary dictionary was obtained, refetch the default language over the
same bases and apply it with an empty fallback; give up silently otherwise. -/
def setLangFallback (env : Env) (st : St) (lang : String) :
    Except String (St × List (JValue × JValue)) :=
  if lang = DEFAULT_LANG then .ok (st, [])
  else
    match tryBases env DEFAULT_LANG bases with
    | some baseDict =>
      .ok ({ st with
              doc := applyTranslations (jsOr baseDict emptyObj) emptyObj st.doc },
           [(jsOr baseDict emptyObj, emptyObj)])
    | none => .ok (st, [])

/-- The fallback dictionary `fallbackDict || {}` of the success path of
`setLang` (src/i18n.js lines 160-175): null unless the language differs
from the default and some base yields the default dictionary. -/
def successFallback (env : Env) (lang : String) : JValue :=
  if lang = DEFAULT_LANG then emptyObj
  else
    match tryBases env DEFAULT_LANG bases with
    | some f => jsOr f emptyObj
    | none => emptyObj

/-- The success path of `setLang` (src/i18n.js lines 160-186): apply the
dictionaries, record them in `__lastDict` and `__lastFallback`, then install
the global API unless assigning to `window` throws. -/
def setLangSuccess (env : Env) (st : St) (lang : String) (dict : JValue) :
    Except String (St × List (JValue × JValue)) :=
  .ok ({ st with
          doc := applyTranslations (jsOr dict emptyObj) (successFallback env lang) st.doc,
          lastDict := some (jsOr dict emptyObj),
          lastFallback := some (successFallback env lang),
          installed := st.installed || env.assignOk },
       [(jsOr dict emptyObj, successFallback env lang)])

/-- The dictionary-loading part of `setLang` (src/i18n.js lines 120-186):
try the candidate bases and branch on whether a truthy primary dictionary
was obtained. -/
def setLangLoaded (env : Env) (st : St) (lang : String) :
    Except String (St × List (JValue × JValue)) :=
  match tryBases env lang bases with
  | some dict =>
    if truthy dict then setLangSuccess env st lang dict
    else setLangFallback env st lang
  | none => setLangFallback env st lang

/-- The persistence step of `setLang` (src/i18n.js lines 113-117): the
storage write inside try/catch, a failure being ignored. -/
def persistLang (env : Env) (st : St) (lang : String) : St :=
  match storageSetItem env with
  | .ok _ => { st with stored := some lang }
  | .error _ => st

/-- The state after the persistence step and `updateLangUi` of `setLang`. -/
def uiState (env : Env) (st : St) (lang : String) : St :=
  { persistLang env st lang with
    doc := updateLangUi lang (persistLang env st lang).doc }

/-- `setLang` (src/i18n.js lines 110-187): normalize the language, persist
it (failure ignored), update the language UI, then load and apply the
dictionaries. The returned list records the `applyTranslations` invocations
(primary, fallback) in order. -/
def setLang (env : Env) (st : St) (lang0 : String) :
    Except String (St × List (JValue × JValue)) :=
  setLangLoaded env (uiState env st (normLang lang0)) (normLang lang0)

/-- The apply invocations performed by a `setLang` result. -/
def resultCalls (r : Except String (St × List (JValue × JValue))) :
    List (JValue × JValue) :=
  match r with
  | .ok (_, calls) => calls
  | .error _ => []

/-- The final page state of a `setLang` result. -/
def resultState (r : Except String (St × List (JValue × JValue))) : Option St :=
  match r with
  | .ok (st, _) => some st
  | .error _ => none

/-- `getInitialLang` (src/i18n.js lines 8-18). The first argument is the
outcome of `localStorage.getItem` (an error models a throwing storage read,
`none` an absent entry); the second is `document.documentElement.lang`
(`none` when there is no document element). -/
def getInitialLang (storage : Except String (Option String))
    (docLang : Option String) : String :=
  let fromStore : Option String :=
    match storage with
    | .ok (some saved) =>
      if strTruthy saved && SUPPORTED.contains saved then some saved else none
    | _ => none
  match fromStore with
  | some saved => saved
  | none =>
    match docLang with
    | some d => if strTruthy d && SUPPORTED.contains d then d else DEFAULT_LANG
    | none => DEFAULT_LANG

/-- Modelled from the text of claim C5: persisted preference when present and
supported, else the declared document language when supported, else the
default; a storage failure counts as an absent preference. -/
def specInitialLanguage (storage : Except String (Option String))
    (docLang : Option String) : String :=
  let fromDoc : String :=
    match docLang with
    | some d => if SUPPORTED.contains d then d else DEFAULT_LANG
    | none => DEFAULT_LANG
  match storage with
  | .ok (some saved) => if SUPPORTED.contains saved then saved else fromDoc
  | _ => fromDoc

/-- One `setLang` call of an execution trace, as a state transformer. -/
def stepCall (st : St) (c : Env × String) : St :=
  match setLang c.1 st c.2 with
  | .ok (st1, _) => st1
  | .error _ => st

/-- Whether a call obtains a truthy primary dictionary, i.e. whether it takes
the success path of `setLang`. -/
def succCall (c : Env × String) : Bool :=
  match tryBases c.1 (normLang c.2) bases with
  | some d => truthy d
  | none => false

/-- The primary and fallback dictionaries that the success path of `setLang`
loads and stores into `__lastDict` and `__lastFallback` for a given call. -/
def loadedPair (c : Env × String) : JValue × JValue :=
  match tryBases c.1 (normLang c.2) bases with
  | some dict => (jsOr dict emptyObj, successFallback c.1 (normLang c.2))
  | none => (emptyObj, emptyObj)

/-- The dictionaries `window.i18n.refresh` would pass to `applyTranslations`
in a given state: `applyTranslations(__lastDict || {}, __lastFallback || {})`. -/
def refreshArgs (st : St) : JValue × JValue :=
  (match st.lastDict with
   | some d => jsOr d emptyObj
   | none => emptyObj,
   match st.lastFallback with
   | some f => jsOr f emptyObj
   | none => emptyObj)

/-- Primary dictionary of the C1 counterexample: a string leaf. -/
def cexDict : JValue := .obj [("a", .str "xy")]

/-- Fallback dictionary of the C1 counterexample. -/
def cexFallback : JValue := .obj []

/-- A concrete Hungarian dictionary used by witnesses. -/
def huDict : JValue :=
  .obj [("meta", .obj [("title", .str "Szia"), ("description", .str "Leiras")]),
        ("greet", .str "hello"),
        ("form", .obj [("name", .str "Nev"), ("tooltip", .str "Tipp")])]

/-- Witness environment: only the first-base Hungarian dictionary URL
resolves; every other fetch fails. -/
def envHuOnly : Env :=
  { fetch := fun url =>
      if url = "./i18n/hu.json" then .ok huDict else .error "HTTP 404",
    storageOk := true,
    assignOk := true }

/-- Witness environment in which every fetch fails. -/
def envAllFail : Env :=
  { fetch := fun _ => .error "network failure", storageOk := true, assignOk := true }

/-- A small document used by loader witnesses. -/
def docA : Doc :=
  { docLang := "hu", title := "Cim", metaDescription := none, elems := [] }

/-- Loader witness start state. -/
def stA : St := initialState none docA

/-- Whether the text-binding key of an element (if any) is unresolved in
both dictionaries. -/
def textKeyUnresolved (dict fallbackDict : JValue) (el : Elem) : Bool :=
  (resolveAttrKey (resolve dict fallbackDict) (lookupAttr el.attrs "data-i18n")).isNone

/-- Whether the HTML-binding key of an element (if any) is unresolved in
both dictionaries. -/
def htmlKeyUnresolved (dict fallbackDict : JValue) (el : Elem) : Bool :=
  (resolveAttrKey (resolve dict fallbackDict) (lookupAttr el.attrs "data-i18n-html")).isNone

/-- Whether every parsed attribute-binding pair of an element that names the
attribute `a` has a key unresolved in both dictionaries. -/
def attrKeyUnresolvedAt (dict fallbackDict : JValue) (el : Elem) (a : String) : Bool :=
  (parsePairs ((lookupAttr el.attrs "data-i18n-attr").getD "")).all
    (fun p => if p.1 = a then (resolve dict fallbackDict p.2).isNone else true)

/-- Whether some pair of `pairs` names the attribute `a` and resolves to
exactly the value `r`. -/
def anyWrote (res : String → Option String) (pairs : List (String × String))
    (a : String) (r : Option String) : Bool :=
  pairs.any (fun p => p.1 == a && res p.2 == r)

/-- Whether a `setLang` run completed without throwing. -/
def isOkResult (r : Except String (St × List (JValue × JValue))) : Bool :=
  match r with
  | .ok _ => true
  | .error _ => false

/-- Element whose three binding markers all carry unresolved keys (C6). -/
def el6 : Elem :=
  { text := "regi szoveg",
    innerHTML := "regi html",
    attrs := [("data-i18n", "missing.a"), ("data-i18n-html", "missing.b"),
              ("data-i18n-attr", "title:missing.c"), ("title", "regi cim")] }

/-- Document holding `el6`. -/
def doc6 : Doc :=
  { docLang := "hu", title := "T", metaDescription := none, elems := [el6] }

/-- Element carrying the attribute-binding marker of spec test 6,
with a malformed third pair (C8). -/
def el8 : Elem :=
  { text := "t", innerHTML := "h",
    attrs := [("data-i18n-attr", "placeholder:form.name; title:form.tooltip; malformed")] }

/-- Document holding `el8`. -/
def doc8 : Doc :=
  { docLang := "hu", title := "T", metaDescription := none, elems := [el8] }

/-- Element with a resolvable text binding (C9 witness). -/
def el9 : Elem :=
  { text := "regi", innerHTML := "h", attrs := [("data-i18n", "greet")] }

/-- Document holding `el9`. -/
def doc9 : Doc :=
  { docLang := "hu", title := "Regi cim", metaDescription := none, elems := [el9] }

end I18n

namespace I18n

theorem foldl_pathStep_none (segs : List String) :
    segs.foldl pathStep none = none := by
  induction segs with
  | nil => rfl
  | cons p ps ih => simpa [pathStep] using ih

theorem foldl_pathStep_some (segs : List String) :
    ∀ v : JValue, segs.foldl pathStep (some v) = ownTraverse v segs := by
  induction segs with
  | nil => intro v; rfl
  | cons p ps ih =>
    intro v
    show ps.foldl pathStep (pathStep (some v) p) = _
    cases hv : truthy v with
    | false => simp [pathStep, hv, ownTraverse, foldl_pathStep_none]
    | true =>
      cases hg : getOwn v p with
      | some w => simp [pathStep, hv, hg, ownTraverse, ih]
      | none => simp [pathStep, hv, hg, ownTraverse, foldl_pathStep_none]

theorem getByPath_eq_ownTraverse (d : JValue) (key : String)
    (hk : strTruthy key = true) :
    getByPath d key = if truthy d then ownTraverse d (splitChar '.' key) else none := by
  unfold getByPath
  cases ht : truthy d with
  | false => simp [hk, ht]
  | true => simp [hk, ht, foldl_pathStep_some]

theorem ownStrHit_eq_hit (d : JValue) (key : String) (hk : strTruthy key = true) :
    ownStrHit d (splitChar '.' key) = specStrHit (getByPath d key) := by
  rw [getByPath_eq_ownTraverse d key hk]
  unfold ownStrHit
  cases ht : truthy d with
  | false => simp [specStrHit]
  | true => simp

theorem resolveFb_eq_hit (fb : JValue) (key : String) :
    resolveFb fb key = if truthy fb then specStrHit (getByPath fb key) else none := by
  unfold resolveFb
  cases ht : truthy fb with
  | false => simp
  | true =>
    simp only [if_true]
    cases hg : getByPath fb key with
    | none => simp [specStrHit]
    | some v => cases v <;> simp [specStrHit]

theorem resolveFb_eq_own (fb : JValue) (key : String) (hk : strTruthy key = true) :
    resolveFb fb key = ownStrHit fb (splitChar '.' key) := by
  rw [resolveFb_eq_hit, ownStrHit_eq_hit fb key hk]
  cases ht : truthy fb with
  | false =>
    rw [getByPath_eq_ownTraverse fb key hk]
    simp [ht, specStrHit]
  | true => simp

theorem resolve_eq_hit (d fb : JValue) (key : String) (hk : strTruthy key = true) :
    resolve d fb key =
      match specStrHit (getByPath d key) with
      | some v => some v
      | none => resolveFb fb key := by
  unfold resolve
  simp only [hk, Bool.not_true, Bool.false_eq_true, if_false]
  cases hg : getByPath d key with
  | none => simp [specStrHit]
  | some v =>
    cases v with
    | str s =>
      simp only [specStrHit]
      by_cases htr : trimmedNonempty s = true <;> simp [htr]
    | num n => simp [specStrHit]
    | bool b => simp [specStrHit]
    | null => simp [specStrHit]
    | arr xs => simp [specStrHit]
    | obj fs => simp [specStrHit]

/-- Claim C1, counterexample: with primary dictionary `{"a": "xy"}`, empty
fallback and key `"a.0"`, the code resolves `"x"` by indexing into the
string leaf, while the mapping-only traversal the claim describes leaves
the key unresolved. -/
theorem claim1_counterexample :
    resolve cexDict cexFallback "a.0" = some "x" ∧
    specResolve cexDict cexFallback "a.0" = none :=
  ⟨rfl, rfl⟩

/-- Claim C1 as amended: for every key and every pair of values, `resolve`
traverses the primary by splitting the key on a dot, continuing at each
segment exactly when the current value is truthy and has the segment as an
own property (mappings by explicit own key; strings and arrays also by
canonical element index or length); if traversal ends in a string nonempty
after trimming it is returned, otherwise the same traversal is repeated on
the fallback, otherwise the key is unresolved. -/
theorem claim1_resolve_own_property (dict fallbackDict : JValue) (key : String) :
    resolve dict fallbackDict key = amendedResolve dict fallbackDict key := by
  cases hk : strTruthy key with
  | false => simp [resolve, amendedResolve, hk]
  | true =>
    rw [resolve_eq_hit dict fallbackDict key hk]
    unfold amendedResolve
    simp only [hk, Bool.not_true, Bool.false_eq_true, if_false]
    rw [ownStrHit_eq_hit dict key hk, resolveFb_eq_own fallbackDict key hk]

theorem supported_nonempty (s : String) (h : SUPPORTED.contains s = true) :
    strTruthy s = true := by
  have hs : s = "hu" ∨ s = "it" := by simpa [SUPPORTED] using h
  rcases hs with rfl | rfl <;> rfl

theorem truthy_and_contains (s : String) :
    (strTruthy s && SUPPORTED.contains s) = SUPPORTED.contains s := by
  cases hc : SUPPORTED.contains s with
  | false => simp
  | true => simp [supported_nonempty s hc]

/-- Claim C5: `getInitialLang` returns the persisted preference when present
and supported, otherwise the declared document language when supported,
otherwise the default code, and a storage-read failure counts as an absent
preference. -/
theorem claim5_initial_language_precedence
    (storage : Except String (Option String)) (docLang : Option String) :
    getInitialLang storage docLang = specInitialLanguage storage docLang := by
  unfold getInitialLang specInitialLanguage
  simp only [truthy_and_contains]
  cases storage with
  | error e => cases docLang <;> rfl
  | ok saved =>
    cases saved with
    | none => cases docLang <;> rfl
    | some s =>
      by_cases hm : s ∈ SUPPORTED
      · simp [hm]
      · cases docLang <;> simp [hm]

theorem listGetMap {α β : Type} (f : α → β) (l : List α) :
    ∀ i : Nat, (l.map f).get? i = (l.get? i).map f := by
  induction l with
  | nil => intro i; cases i <;> rfl
  | cons a as ih =>
    intro i
    cases i with
    | zero => rfl
    | succ n => exact ih n

theorem lookupAttr_setAssoc_self (l : List (String × String)) (name v : String) :
    lookupAttr (setAssoc l name v) name = some v := by
  induction l with
  | nil => simp [setAssoc, lookupAttr]
  | cons kv rest ih =>
    obtain ⟨k, w⟩ := kv
    by_cases hk : k = name
    · simp [setAssoc, hk, lookupAttr]
    · simp [setAssoc, hk, lookupAttr, ih]

theorem lookupAttr_setAssoc_ne (l : List (String × String)) (name v m : String)
    (h : m ≠ name) :
    lookupAttr (setAssoc l name v) m = lookupAttr l m := by
  have hnm : ¬(name = m) := fun hh => h hh.symm
  induction l with
  | nil => simp [setAssoc, lookupAttr, hnm]
  | cons kv rest ih =>
    obtain ⟨k, w⟩ := kv
    by_cases hk : k = name
    · subst hk
      simp [setAssoc, lookupAttr, hnm]
    · by_cases hkm : k = m
      · subst hkm
        simp [setAssoc, hk, lookupAttr]
      · simp [setAssoc, hk, lookupAttr, hkm, ih]

theorem textStep_attrs (res : String → Option String) (el : Elem) :
    (textStep res el).attrs = el.attrs := by
  unfold textStep
  cases resolveAttrKey res (lookupAttr el.attrs "data-i18n") <;> rfl

theorem textStep_innerHTML (res : String → Option String) (el : Elem) :
    (textStep res el).innerHTML = el.innerHTML := by
  unfold textStep
  cases resolveAttrKey res (lookupAttr el.attrs "data-i18n") <;> rfl

theorem htmlStep_attrs (res : String → Option String) (el : Elem) :
    (htmlStep res el).attrs = el.attrs := by
  unfold htmlStep
  cases resolveAttrKey res (lookupAttr el.attrs "data-i18n-html") <;> rfl

theorem htmlStep_text (res : String → Option String) (el : Elem) :
    (htmlStep res el).text = el.text := by
  unfold htmlStep
  cases resolveAttrKey res (lookupAttr el.attrs "data-i18n-html") <;> rfl

theorem attrStep_text (res : String → Option String) (el : Elem) :
    (attrStep res el).text = el.text := rfl

theorem attrStep_innerHTML (res : String → Option String) (el : Elem) :
    (attrStep res el).innerHTML = el.innerHTML := rfl

theorem titlePass_elems (res : String → Option String) (doc : Doc) :
    (titlePass res doc).elems = doc.elems := by
  unfold titlePass
  cases res "meta.title" <;> rfl

theorem titlePass_metaDescription (res : String → Option String) (doc : Doc) :
    (titlePass res doc).metaDescription = doc.metaDescription := by
  unfold titlePass
  cases res "meta.title" <;> rfl

theorem titlePass_docLang (res : String → Option String) (doc : Doc) :
    (titlePass res doc).docLang = doc.docLang := by
  unfold titlePass
  cases res "meta.title" <;> rfl

theorem titlePass_title (res : String → Option String) (doc : Doc) :
    (titlePass res doc).title =
      match res "meta.title" with
      | some t => t
      | none => doc.title := by
  unfold titlePass
  cases res "meta.title" <;> rfl

theorem metaPass_elems (res : String → Option String) (doc : Doc) :
    (metaPass res doc).elems = doc.elems := by
  unfold metaPass
  cases res "meta.description" <;> (try cases doc.metaDescription) <;> rfl

theorem metaPass_title (res : String → Option String) (doc : Doc) :
    (metaPass res doc).title = doc.title := by
  unfold metaPass
  cases res "meta.description" <;> (try cases doc.metaDescription) <;> rfl

theorem metaPass_docLang (res : String → Option String) (doc : Doc) :
    (metaPass res doc).docLang = doc.docLang := by
  unfold metaPass
  cases res "meta.description" <;> (try cases doc.metaDescription) <;> rfl

theorem metaPass_metaDescription (res : String → Option String) (doc : Doc) :
    (metaPass res doc).metaDescription =
      match res "meta.description", doc.metaDescription with
      | some dsc, some _ => some dsc
      | _, _ => doc.metaDescription := by
  unfold metaPass
  cases res "meta.description" <;> cases hm : doc.metaDescription <;> simp [hm]

theorem apply_elems (dict fallbackDict : JValue) (doc : Doc) :
    (applyTranslations dict fallbackDict doc).elems =
      ((doc.elems.map (textStep (resolve dict fallbackDict))).map
        (htmlStep (resolve dict fallbackDict))).map
        (attrStep (resolve dict fallbackDict)) := by
  show ((((metaPass (resolve dict fallbackDict)
      (titlePass (resolve dict fallbackDict) doc)).elems.map
        (textStep (resolve dict fallbackDict))).map
        (htmlStep (resolve dict fallbackDict))).map
        (attrStep (resolve dict fallbackDict))) = _
  rw [metaPass_elems, titlePass_elems]

theorem apply_title (dict fallbackDict : JValue) (doc : Doc) :
    (applyTranslations dict fallbackDict doc).title =
      match resolve dict fallbackDict "meta.title" with
      | some t => t
      | none => doc.title := by
  show (metaPass _ (titlePass _ doc)).title = _
  rw [metaPass_title, titlePass_title]

theorem apply_metaDescription (dict fallbackDict : JValue) (doc : Doc) :
    (applyTranslations dict fallbackDict doc).metaDescription =
      match resolve dict fallbackDict "meta.description",
            (titlePass (resolve dict fallbackDict) doc).metaDescription with
      | some dsc, some _ => some dsc
      | _, _ => (titlePass (resolve dict fallbackDict) doc).metaDescription := by
  show (metaPass _ (titlePass _ doc)).metaDescription = _
  rw [metaPass_metaDescription]

theorem apply_docLang (dict fallbackDict : JValue) (doc : Doc) :
    (applyTranslations dict fallbackDict doc).docLang = doc.docLang := by
  show (metaPass _ (titlePass _ doc)).docLang = _
  rw [metaPass_docLang, titlePass_docLang]

theorem apply_elem_at (dict fallbackDict : JValue) (doc : Doc) (i : Nat) (el : Elem)
    (h : doc.elems.get? i = some el) :
    (applyTranslations dict fallbackDict doc).elems.get? i =
      some (attrStep (resolve dict fallbackDict)
        (htmlStep (resolve dict fallbackDict)
          (textStep (resolve dict fallbackDict) el))) := by
  rw [apply_elems, listGetMap, listGetMap, listGetMap, h]
  rfl

theorem fold_attrWrite_unresolved (res : String → Option String)
    (a : String) (pairs : List (String × String)) :
    ∀ ats : List (String × String),
      pairs.all (fun p => if p.1 = a then (res p.2).isNone else true) = true →
      lookupAttr (pairs.foldl (attrWrite res) ats) a = lookupAttr ats a := by
  induction pairs with
  | nil => intro ats _; rfl
  | cons p rest ih =>
    intro ats hall
    rw [List.all_cons, Bool.and_eq_true] at hall
    obtain ⟨h1, h2⟩ := hall
    show lookupAttr (rest.foldl (attrWrite res) (attrWrite res ats p)) a = _
    rw [ih _ h2]
    unfold attrWrite
    cases hr : res p.2 with
    | none => rfl
    | some v =>
      by_cases hp : p.1 = a
      · rw [hp, hr] at h1
        simp at h1
      · exact lookupAttr_setAssoc_ne ats p.1 v a (fun hh => hp hh.symm)

theorem fold_attrWrite_written (res : String → Option String)
    (a : String) (pairs : List (String × String)) :
    ∀ ats : List (String × String),
      lookupAttr (pairs.foldl (attrWrite res) ats) a = lookupAttr ats a ∨
      anyWrote res pairs a (lookupAttr (pairs.foldl (attrWrite res) ats) a) = true := by
  induction pairs with
  | nil => intro ats; left; rfl
  | cons p rest ih =>
    intro ats
    have hfold :
        (p :: rest).foldl (attrWrite res) ats =
          rest.foldl (attrWrite res) (attrWrite res ats p) := rfl
    rw [hfold]
    rcases ih (attrWrite res ats p) with hL | hR
    · cases hr : res p.2 with
      | none =>
        left
        rw [hL]
        unfold attrWrite
        rw [hr]
      | some v =>
        by_cases hp : p.1 = a
        · right
          have hv : lookupAttr (rest.foldl (attrWrite res) (attrWrite res ats p)) a = some v := by
            rw [hL]
            unfold attrWrite
            rw [hr, hp]
            exact lookupAttr_setAssoc_self ats a v
          rw [hv]
          unfold anyWrote
          rw [List.any_cons]
          simp [hp, hr]
        · left
          rw [hL]
          unfold attrWrite
          rw [hr]
          exact lookupAttr_setAssoc_ne ats p.1 v a (fun hh => hp hh.symm)
    · right
      unfold anyWrote at hR ⊢
      rw [List.any_cons, hR, Bool.or_true]

/-- Claim C6: for every element carrying a binding marker whose key is
unresolved in both the primary and the fallback dictionary,
`applyTranslations` leaves that target — the text content for an unresolved
text marker, the inner HTML for an unresolved HTML marker, and any
attribute named only by unresolved attribute-binding pairs — exactly as it
was before the call. -/
theorem claim6_unresolved_leaves_target_unchanged
    (dict fallbackDict : JValue) (doc : Doc) (i : Nat) (el : Elem) (a : String)
    (h : doc.elems.get? i = some el) :
    (textKeyUnresolved dict fallbackDict el = true →
      ((applyTranslations dict fallbackDict doc).elems.get? i).map Elem.text =
        some el.text) ∧
    (htmlKeyUnresolved dict fallbackDict el = true →
      ((applyTranslations dict fallbackDict doc).elems.get? i).map Elem.innerHTML =
        some el.innerHTML) ∧
    (attrKeyUnresolvedAt dict fallbackDict el a = true →
      ((applyTranslations dict fallbackDict doc).elems.get? i).map
          (fun e => lookupAttr e.attrs a) =
        some (lookupAttr el.attrs a)) := by
  rw [apply_elem_at dict fallbackDict doc i el h]
  refine ⟨?_, ?_, ?_⟩
  · intro hu
    refine congrArg some ?_
    rw [attrStep_text, htmlStep_text]
    unfold textKeyUnresolved at hu
    unfold textStep
    cases hk : resolveAttrKey (resolve dict fallbackDict)
        (lookupAttr el.attrs "data-i18n") with
    | none => rfl
    | some v => rw [hk] at hu; simp at hu
  · intro hu
    refine congrArg some ?_
    rw [attrStep_innerHTML]
    unfold htmlKeyUnresolved at hu
    unfold htmlStep
    rw [textStep_attrs]
    cases hk : resolveAttrKey (resolve dict fallbackDict)
        (lookupAttr el.attrs "data-i18n-html") with
    | none => exact textStep_innerHTML _ el
    | some v => rw [hk] at hu; simp at hu
  · intro hu
    refine congrArg some ?_
    show lookupAttr (attrStep (resolve dict fallbackDict)
        (htmlStep (resolve dict fallbackDict)
          (textStep (resolve dict fallbackDict) el))).attrs a = _
    unfold attrStep
    show lookupAttr
        ((parsePairs ((lookupAttr (htmlStep (resolve dict fallbackDict)
            (textStep (resolve dict fallbackDict) el)).attrs
              "data-i18n-attr").getD "")).foldl
          (attrWrite (resolve dict fallbackDict))
          (htmlStep (resolve dict fallbackDict)
            (textStep (resolve dict fallbackDict) el)).attrs) a = _
    rw [htmlStep_attrs, textStep_attrs]
    unfold attrKeyUnresolvedAt at hu
    exact fold_attrWrite_unresolved (resolve dict fallbackDict) a _ el.attrs hu

theorem attrStep_attrs_of (dict fallbackDict : JValue) (el : Elem) :
    (attrStep (resolve dict fallbackDict)
      (htmlStep (resolve dict fallbackDict)
        (textStep (resolve dict fallbackDict) el))).attrs =
      (parsePairs ((lookupAttr el.attrs "data-i18n-attr").getD "")).foldl
        (attrWrite (resolve dict fallbackDict)) el.attrs := by
  unfold attrStep
  show (parsePairs ((lookupAttr (htmlStep (resolve dict fallbackDict)
      (textStep (resolve dict fallbackDict) el)).attrs
        "data-i18n-attr").getD "")).foldl
      (attrWrite (resolve dict fallbackDict))
      (htmlStep (resolve dict fallbackDict)
        (textStep (resolve dict fallbackDict) el)).attrs = _
  rw [htmlStep_attrs, textStep_attrs]

/-- Claim C8: for every element carrying an attribute-binding marker,
`applyTranslations` splits the marker value on semicolons, trims each
piece, splits each piece on a colon into an attribute name and a key, and
sets each named attribute to the resolved value of its key in order, while
every malformed pair is skipped without touching anything; an attribute
named by no well-formed pair is left unchanged. -/
theorem claim8_attr_binding_pairs
    (dict fallbackDict : JValue) (doc : Doc) (i : Nat) (el : Elem) (a : String)
    (h : doc.elems.get? i = some el) :
    ((applyTranslations dict fallbackDict doc).elems.get? i).map Elem.attrs =
      some ((parsePairs ((lookupAttr el.attrs "data-i18n-attr").getD "")).foldl
        (attrWrite (resolve dict fallbackDict)) el.attrs) ∧
    ((parsePairs ((lookupAttr el.attrs "data-i18n-attr").getD "")).all
        (fun p => !(p.1 == a)) = true →
      ((applyTranslations dict fallbackDict doc).elems.get? i).map
          (fun e => lookupAttr e.attrs a) = some (lookupAttr el.attrs a)) := by
  rw [apply_elem_at dict fallbackDict doc i el h]
  constructor
  · exact congrArg some (attrStep_attrs_of dict fallbackDict el)
  · intro hall
    refine congrArg some ?_
    show lookupAttr (attrStep (resolve dict fallbackDict)
        (htmlStep (resolve dict fallbackDict)
          (textStep (resolve dict fallbackDict) el))).attrs a = _
    rw [attrStep_attrs_of dict fallbackDict el]
    refine fold_attrWrite_unresolved (resolve dict fallbackDict) a _ el.attrs ?_
    rw [List.all_eq_true] at hall ⊢
    intro p hp
    have hne := hall p hp
    by_cases hpa : p.1 = a
    · rw [hpa] at hne; simp at hne
    · simp [hpa]

theorem resolveFb_sound (fallbackDict : JValue) (k v : String)
    (h : resolveFb fallbackDict k = some v) :
    trimmedNonempty v = true ∧ getByPath fallbackDict k = some (.str v) := by
  unfold resolveFb at h
  cases ht : truthy fallbackDict with
  | false => simp [ht] at h
  | true =>
    simp only [ht, if_true] at h
    cases hg : getByPath fallbackDict k with
    | none => rw [hg] at h; simp at h
    | some w =>
      rw [hg] at h
      cases w with
      | str s =>
        by_cases htr : trimmedNonempty s = true
        · simp only [htr, if_true, Option.some.injEq] at h
          subst h
          exact ⟨htr, rfl⟩
        · simp [htr] at h
      | num n => simp at h
      | bool b => simp at h
      | null => simp at h
      | arr xs => simp at h
      | obj fs => simp at h

theorem resolve_sound (dict fallbackDict : JValue) (k v : String)
    (h : resolve dict fallbackDict k = some v) :
    trimmedNonempty v = true ∧
    (getByPath dict k = some (.str v) ∨ getByPath fallbackDict k = some (.str v)) := by
  unfold resolve at h
  cases hk : strTruthy k with
  | false => simp [hk] at h
  | true =>
    simp only [hk, Bool.not_true, Bool.false_eq_true, if_false] at h
    cases hg : getByPath dict k with
    | none =>
      rw [hg] at h
      rcases resolveFb_sound fallbackDict k v h with ⟨h1, h2⟩
      exact ⟨h1, Or.inr h2⟩
    | some w =>
      rw [hg] at h
      cases w with
      | str s =>
        by_cases htr : trimmedNonempty s = true
        · simp only [htr, if_true, Option.some.injEq] at h
          subst h
          exact ⟨htr, Or.inl rfl⟩
        · simp only [htr, if_false] at h
          rcases resolveFb_sound fallbackDict k v h with ⟨h1, h2⟩
          exact ⟨h1, Or.inr h2⟩
      | num n =>
        rcases resolveFb_sound fallbackDict k v h with ⟨h1, h2⟩
        exact ⟨h1, Or.inr h2⟩
      | bool b =>
        rcases resolveFb_sound fallbackDict k v h with ⟨h1, h2⟩
        exact ⟨h1, Or.inr h2⟩
      | null =>
        rcases resolveFb_sound fallbackDict k v h with ⟨h1, h2⟩
        exact ⟨h1, Or.inr h2⟩
      | arr xs =>
        rcases resolveFb_sound fallbackDict k v h with ⟨h1, h2⟩
        exact ⟨h1, Or.inr h2⟩
      | obj fs =>
        rcases resolveFb_sound fallbackDict k v h with ⟨h1, h2⟩
        exact ⟨h1, Or.inr h2⟩

/-- Claim C9: every value `applyTranslations` writes — document title,
description meta content, element text, element inner HTML, or a bound
attribute — is exactly a value produced by `resolve` for the corresponding
binding key, and every value `resolve` produces is a string nonempty after
trimming found at the key path of the primary or, failing that, of the
fallback dictionary; anything not so written is left unchanged. -/
theorem claim9_written_values_from_dictionaries
    (dict fallbackDict : JValue) (doc : Doc) (i : Nat) (el : Elem)
    (a k v : String)
    (h : doc.elems.get? i = some el) :
    ((applyTranslations dict fallbackDict doc).title = doc.title ∨
      resolve dict fallbackDict "meta.title" =
        some (applyTranslations dict fallbackDict doc).title) ∧
    ((applyTranslations dict fallbackDict doc).metaDescription = doc.metaDescription ∨
      (applyTranslations dict fallbackDict doc).metaDescription =
        resolve dict fallbackDict "meta.description") ∧
    (((applyTranslations dict fallbackDict doc).elems.get? i).map Elem.text =
        some el.text ∨
      ((applyTranslations dict fallbackDict doc).elems.get? i).map Elem.text =
        resolveAttrKey (resolve dict fallbackDict)
          (lookupAttr el.attrs "data-i18n")) ∧
    (((applyTranslations dict fallbackDict doc).elems.get? i).map Elem.innerHTML =
        some el.innerHTML ∨
      ((applyTranslations dict fallbackDict doc).elems.get? i).map Elem.innerHTML =
        resolveAttrKey (resolve dict fallbackDict)
          (lookupAttr el.attrs "data-i18n-html")) ∧
    (((applyTranslations dict fallbackDict doc).elems.get? i).map
        (fun e => lookupAttr e.attrs a) = some (lookupAttr el.attrs a) ∨
      anyWrote (resolve dict fallbackDict)
        (parsePairs ((lookupAttr el.attrs "data-i18n-attr").getD "")) a
        (((applyTranslations dict fallbackDict doc).elems.get? i).bind
          (fun e => lookupAttr e.attrs a)) = true) ∧
    (resolve dict fallbackDict k = some v →
      trimmedNonempty v = true ∧
      (getByPath dict k = some (.str v) ∨
        getByPath fallbackDict k = some (.str v))) := by
  refine ⟨?_, ?_, ?_, ?_, ?_, resolve_sound dict fallbackDict k v⟩
  · rw [apply_title]
    cases hr : resolve dict fallbackDict "meta.title" with
    | none => exact Or.inl rfl
    | some t => exact Or.inr rfl
  · rw [apply_metaDescription, titlePass_metaDescription]
    cases hr : resolve dict fallbackDict "meta.description" with
    | none => exact Or.inl (by cases doc.metaDescription <;> rfl)
    | some dsc =>
      cases hm : doc.metaDescription with
      | none => exact Or.inl rfl
      | some old => exact Or.inr rfl
  · rw [apply_elem_at dict fallbackDict doc i el h]
    cases hk : resolveAttrKey (resolve dict fallbackDict)
        (lookupAttr el.attrs "data-i18n") with
    | none =>
      refine Or.inl (congrArg some ?_)
      rw [attrStep_text, htmlStep_text]
      unfold textStep
      rw [hk]
    | some t =>
      refine Or.inr ?_
      refine congrArg some ?_
      rw [attrStep_text, htmlStep_text]
      unfold textStep
      rw [hk]
  · rw [apply_elem_at dict fallbackDict doc i el h]
    cases hk : resolveAttrKey (resolve dict fallbackDict)
        (lookupAttr el.attrs "data-i18n-html") with
    | none =>
      refine Or.inl (congrArg some ?_)
      rw [attrStep_innerHTML]
      unfold htmlStep
      rw [textStep_attrs, hk]
      exact textStep_innerHTML _ el
    | some t =>
      refine Or.inr ?_
      refine congrArg some ?_
      rw [attrStep_innerHTML]
      unfold htmlStep
      rw [textStep_attrs, hk]
  · rw [apply_elem_at dict fallbackDict doc i el h]
    have hX := attrStep_attrs_of dict fallbackDict el
    show some (lookupAttr (attrStep (resolve dict fallbackDict)
        (htmlStep (resolve dict fallbackDict)
          (textStep (resolve dict fallbackDict) el))).attrs a) =
        some (lookupAttr el.attrs a) ∨
      anyWrote (resolve dict fallbackDict)
        (parsePairs ((lookupAttr el.attrs "data-i18n-attr").getD "")) a
        (lookupAttr (attrStep (resolve dict fallbackDict)
          (htmlStep (resolve dict fallbackDict)
            (textStep (resolve dict fallbackDict) el))).attrs a) = true
    rw [hX]
    rcases fold_attrWrite_written (resolve dict fallbackDict) a
        (parsePairs ((lookupAttr el.attrs "data-i18n-attr").getD "")) el.attrs with
      hL | hR
    · exact Or.inl (congrArg some hL)
    · exact Or.inr hR

theorem strTruthy_normLang (l : String) : strTruthy (normLang l) = true := by
  unfold normLang
  by_cases hc : SUPPORTED.contains l = true
  · rw [if_pos hc]
    exact supported_nonempty l hc
  · rw [if_neg hc]
    rfl

theorem updateLangUi_docLang (lang : String) (doc : Doc)
    (h : strTruthy lang = true) :
    (updateLangUi lang doc).docLang = lang := by
  unfold updateLangUi
  simp [h]

theorem persistLang_eq (env : Env) (st : St) (lang : String) :
    persistLang env st lang =
      { st with stored := if env.storageOk then some lang else st.stored } := by
  unfold persistLang storageSetItem
  cases h : env.storageOk <;> simp

theorem uiState_eq (env : Env) (st : St) (lang : String) :
    uiState env st lang =
      { st with stored := if env.storageOk then some lang else st.stored,
                doc := updateLangUi lang st.doc } := by
  unfold uiState
  rw [persistLang_eq]

theorem jsOr_of_truthy (x y : JValue) (h : truthy x = true) : jsOr x y = x := by
  unfold jsOr
  simp [h]

theorem truthy_jsOr_empty (x : JValue) : truthy (jsOr x emptyObj) = true := by
  unfold jsOr
  cases h : truthy x with
  | true => simp [h]
  | false => rfl

theorem successFallback_truthy (env : Env) (lang : String) :
    truthy (successFallback env lang) = true := by
  unfold successFallback
  by_cases hl : lang = DEFAULT_LANG
  · simp [hl]; rfl
  · simp only [hl, if_false]
    cases tryBases env DEFAULT_LANG bases with
    | some f => exact truthy_jsOr_empty f
    | none => rfl

theorem loadedPair_truthy (c : Env × String) :
    truthy (loadedPair c).1 = true ∧ truthy (loadedPair c).2 = true := by
  unfold loadedPair
  cases hb : tryBases c.1 (normLang c.2) bases with
  | none => exact ⟨rfl, rfl⟩
  | some d => exact ⟨truthy_jsOr_empty d, successFallback_truthy c.1 (normLang c.2)⟩

theorem setLangFallback_ok (env : Env) (st : St) (lang : String) :
    isOkResult (setLangFallback env st lang) = true ∧
    (resultCalls (setLangFallback env st lang)).length ≤ 1 := by
  unfold setLangFallback
  by_cases hl : lang = DEFAULT_LANG
  · simp [hl, isOkResult, resultCalls]
  · simp only [hl, if_false]
    cases tryBases env DEFAULT_LANG bases <;> simp [isOkResult, resultCalls]

theorem setLangFallback_frame (env : Env) (st : St) (lang : String) :
    (resultState (setLangFallback env st lang)).map St.stored = some st.stored ∧
    (resultState (setLangFallback env st lang)).map St.lastDict = some st.lastDict ∧
    (resultState (setLangFallback env st lang)).map St.lastFallback =
      some st.lastFallback ∧
    (resultState (setLangFallback env st lang)).map St.installed = some st.installed ∧
    (resultState (setLangFallback env st lang)).map (fun s => s.doc.docLang) =
      some st.doc.docLang := by
  unfold setLangFallback
  by_cases hl : lang = DEFAULT_LANG
  · simp [hl, resultState]
  · simp only [hl, if_false]
    cases tryBases env DEFAULT_LANG bases <;> simp [resultState, apply_docLang]

theorem setLangLoaded_fail (env : Env) (st : St) (lang : String)
    (h : (match tryBases env lang bases with
          | some d => truthy d
          | none => false) = false) :
    setLangLoaded env st lang = setLangFallback env st lang := by
  unfold setLangLoaded
  cases hb : tryBases env lang bases with
  | none => rfl
  | some d =>
    rw [hb] at h
    have h0 : truthy d = false := h
    have h2 : ¬(truthy d = true) := by simp [h0]
    show (if truthy d = true then setLangSuccess env st lang d
          else setLangFallback env st lang) = setLangFallback env st lang
    rw [if_neg h2]

/-- Claim C3: for every language code and every combination of fetch,
storage and global-assignment outcomes, `setLang` completes without
throwing past its boundary, and performs at most one apply (the loaded or
the fallback-only outcome; zero applies is the no-dictionary outcome). -/
theorem claim3_setLang_never_throws (env : Env) (st : St) (lang : String) :
    isOkResult (setLang env st lang) = true ∧
    (resultCalls (setLang env st lang)).length ≤ 1 := by
  unfold setLang setLangLoaded
  cases hb : tryBases env (normLang lang) bases with
  | none => exact setLangFallback_ok env _ (normLang lang)
  | some d =>
    cases ht : truthy d with
    | false =>
      simp only [ht, Bool.false_eq_true, if_false]
      exact setLangFallback_ok env _ (normLang lang)
    | true =>
      simp only [ht, if_true]
      unfold setLangSuccess isOkResult resultCalls
      simp

/-- Claim C2: when a supported non-default language is requested, every
fetch of its dictionary fails over all candidate bases, and the default
dictionary is fetched successfully, `applyTranslations` is invoked exactly
once, with the default dictionary as primary and an empty fallback. -/
theorem claim2_default_applied_as_primary (env : Env) (st : St)
    (lang : String) (d : JValue)
    (h1 : SUPPORTED.contains lang = true)
    (h2 : lang ≠ DEFAULT_LANG)
    (h3 : tryBases env lang bases = none)
    (h4 : tryBases env DEFAULT_LANG bases = some d)
    (h5 : truthy d = true) :
    resultCalls (setLang env st lang) = [(d, emptyObj)] := by
  have hn : normLang lang = lang := by unfold normLang; rw [if_pos h1]
  have hload : setLang env st lang = setLangFallback env (uiState env st lang) lang := by
    unfold setLang
    rw [hn]
    unfold setLangLoaded
    rw [h3]
  rw [hload]
  have hcalls : resultCalls (setLangFallback env (uiState env st lang) lang) =
      [(jsOr d emptyObj, emptyObj)] := by
    unfold setLangFallback
    rw [if_neg h2, h4]
    rfl
  rw [hcalls, jsOr_of_truthy d emptyObj h5]

theorem setLang_docLang_stored (env : Env) (st : St) (lang0 : String) :
    (resultState (setLang env st lang0)).map (fun s => s.doc.docLang) =
      some (normLang lang0) ∧
    (resultState (setLang env st lang0)).map St.stored =
      some (if env.storageOk then some (normLang lang0) else st.stored) := by
  have hui : (uiState env st (normLang lang0)).doc.docLang = normLang lang0 := by
    rw [uiState_eq]
    exact updateLangUi_docLang (normLang lang0) st.doc (strTruthy_normLang lang0)
  have hst : (uiState env st (normLang lang0)).stored =
      (if env.storageOk then some (normLang lang0) else st.stored) := by
    rw [uiState_eq]
  unfold setLang setLangLoaded
  cases hb : tryBases env (normLang lang0) bases with
  | none =>
    rcases setLangFallback_frame env (uiState env st (normLang lang0)) (normLang lang0)
      with ⟨f1, f2, f3, f4, f5⟩
    rw [hui] at f5
    rw [hst] at f1
    exact ⟨f5, f1⟩
  | some d =>
    cases ht : truthy d with
    | false =>
      simp only [ht, Bool.false_eq_true, if_false]
      rcases setLangFallback_frame env (uiState env st (normLang lang0)) (normLang lang0)
        with ⟨f1, f2, f3, f4, f5⟩
      rw [hui] at f5
      rw [hst] at f1
      exact ⟨f5, f1⟩
    | true =>
      simp only [ht, if_true]
      constructor
      · show some ((applyTranslations (jsOr d emptyObj)
            (successFallback env (normLang lang0))
            (uiState env st (normLang lang0)).doc).docLang) =
          some (normLang lang0)
        rw [apply_docLang, hui]
      · show some ((uiState env st (normLang lang0)).stored) = _
        rw [hst]

/-- Claim C4: a request for an unsupported code is normalized to the
default before any other effect: the run is identical to a request for the
default code, the document language attribute ends up as the default code,
and the persisted preference (when storage works) is the default code, not
the requested one. -/
theorem claim4_unsupported_normalized_to_default (env : Env) (st : St)
    (lang : String) (h : SUPPORTED.contains lang = false) :
    setLang env st lang = setLang env st DEFAULT_LANG ∧
    (resultState (setLang env st lang)).map (fun s => s.doc.docLang) =
      some DEFAULT_LANG ∧
    (resultState (setLang env st lang)).map St.stored =
      some (if env.storageOk then some DEFAULT_LANG else st.stored) := by
  have hn : normLang lang = DEFAULT_LANG := by
    unfold normLang
    have hc : ¬(SUPPORTED.contains lang = true) := by
      intro hh
      rw [h] at hh
      exact Bool.false_ne_true hh
    rw [if_neg hc]
  refine ⟨?_, ?_, ?_⟩
  · unfold setLang
    rw [hn]
    rfl
  · have := (setLang_docLang_stored env st lang).1
    rw [hn] at this
    exact this
  · have := (setLang_docLang_stored env st lang).2
    rw [hn] at this
    exact this

/-- Claim C7, counterexample: with every fetch failing, switching from the
initial state (document language `"hu"`) to `"it"` still mutates the
document — the document language attribute becomes `"it"` — so the DOM is
not left in its previous state on total failure. -/
theorem claim7_counterexample :
    setLang envAllFail stA "it" =
      .ok ({ stored := some "it", lastDict := none, lastFallback := none,
             installed := false,
             doc := { docLang := "it", title := "Cim", metaDescription := none,
                      elems := [] } }, []) ∧
    stA.doc.docLang = "hu" :=
  ⟨rfl, rfl⟩

/-- Claim C7 as amended: on total failure (every fetch of the requested and
of the default dictionary fails) no apply call occurs and the translated
content is untouched; however the switch still persists the normalized
preference and runs `updateLangUi` — updating the document language
attribute and the pressed state of the switch controls — before fetching. -/
theorem claim7_total_failure_frame (env : Env) (st : St) (lang0 : String)
    (h1 : tryBases env (normLang lang0) bases = none)
    (h2 : tryBases env DEFAULT_LANG bases = none) :
    setLang env st lang0 =
      .ok ({ st with
              stored := if env.storageOk then some (normLang lang0) else st.stored,
              doc := updateLangUi (normLang lang0) st.doc }, []) := by
  unfold setLang setLangLoaded
  rw [h1]
  show setLangFallback env (uiState env st (normLang lang0)) (normLang lang0) = _
  unfold setLangFallback
  by_cases hl : normLang lang0 = DEFAULT_LANG
  · rw [if_pos hl, uiState_eq]
  · rw [if_neg hl, h2]
    show Except.ok (uiState env st (normLang lang0), ([] : List (JValue × JValue))) = _
    rw [uiState_eq]

theorem stepCall_fail (st : St) (c : Env × String) (h : succCall c = false) :
    (stepCall st c).lastDict = st.lastDict ∧
    (stepCall st c).lastFallback = st.lastFallback ∧
    (stepCall st c).installed = st.installed := by
  unfold succCall at h
  have hload : setLang c.1 st c.2 =
      setLangFallback c.1 (uiState c.1 st (normLang c.2)) (normLang c.2) := by
    unfold setLang
    exact setLangLoaded_fail c.1 _ (normLang c.2) h
  unfold stepCall
  rw [hload]
  rcases setLangFallback_frame c.1 (uiState c.1 st (normLang c.2)) (normLang c.2)
    with ⟨f1, f2, f3, f4, f5⟩
  cases hr : setLangFallback c.1 (uiState c.1 st (normLang c.2)) (normLang c.2) with
  | error e =>
    have hok := (setLangFallback_ok c.1 (uiState c.1 st (normLang c.2)) (normLang c.2)).1
    rw [hr] at hok
    exact absurd hok (by simp [isOkResult])
  | ok r =>
    obtain ⟨r1, r2⟩ := r
    rw [hr] at f2 f3 f4
    have e2 : r1.lastDict = (uiState c.1 st (normLang c.2)).lastDict :=
      Option.some.inj f2
    have e3 : r1.lastFallback = (uiState c.1 st (normLang c.2)).lastFallback :=
      Option.some.inj f3
    have e4 : r1.installed = (uiState c.1 st (normLang c.2)).installed :=
      Option.some.inj f4
    have u2 : (uiState c.1 st (normLang c.2)).lastDict = st.lastDict := by
      rw [uiState_eq]
    have u3 : (uiState c.1 st (normLang c.2)).lastFallback = st.lastFallback := by
      rw [uiState_eq]
    have u4 : (uiState c.1 st (normLang c.2)).installed = st.installed := by
      rw [uiState_eq]
    exact ⟨e2.trans u2, e3.trans u3, e4.trans u4⟩

theorem stepCall_succ (st : St) (c : Env × String) (d : JValue)
    (hb : tryBases c.1 (normLang c.2) bases = some d) (ht : truthy d = true) :
    (stepCall st c).lastDict = some (loadedPair c).1 ∧
    (stepCall st c).lastFallback = some (loadedPair c).2 := by
  have hload : setLang c.1 st c.2 =
      setLangSuccess c.1 (uiState c.1 st (normLang c.2)) (normLang c.2) d := by
    unfold setLang setLangLoaded
    rw [hb]
    show (if truthy d = true then
            setLangSuccess c.1 (uiState c.1 st (normLang c.2)) (normLang c.2) d
          else setLangFallback c.1 (uiState c.1 st (normLang c.2)) (normLang c.2)) = _
    rw [if_pos ht]
  have hlp : loadedPair c = (jsOr d emptyObj, successFallback c.1 (normLang c.2)) := by
    unfold loadedPair
    rw [hb]
  unfold stepCall
  rw [hload, hlp]
  exact ⟨rfl, rfl⟩

theorem foldl_fail_preserve (t2 : List (Env × String)) :
    ∀ st : St, t2.all (fun c2 => !succCall c2) = true →
      (t2.foldl stepCall st).lastDict = st.lastDict ∧
      (t2.foldl stepCall st).lastFallback = st.lastFallback ∧
      (t2.foldl stepCall st).installed = st.installed := by
  induction t2 with
  | nil => intro st _; exact ⟨rfl, rfl, rfl⟩
  | cons c cs ih =>
    intro st hall
    rw [List.all_cons, Bool.and_eq_true] at hall
    obtain ⟨h1, h2⟩ := hall
    have hc : succCall c = false := by simpa using h1
    show ((cs.foldl stepCall (stepCall st c))).lastDict = _ ∧ _
    rcases ih (stepCall st c) h2 with ⟨i1, i2, i3⟩
    rcases stepCall_fail st c hc with ⟨g1, g2, g3⟩
    exact ⟨i1.trans g1, i2.trans g2, i3.trans g3⟩

/-- Claim C10: the global API (`window.i18n.refresh` and
`window.i18n.setLang`) is installed only by the success path of `setLang`:
in every execution in which no call obtained a truthy primary dictionary it
is absent, and after any call that did succeed — followed by any number of
unsuccessful calls — `__lastDict` and `__lastFallback` hold exactly that
call's loaded primary and fallback, and `refresh` re-applies exactly that
pair. -/
theorem claim10_global_api_installation :
    (∀ (stored : Option String) (doc : Doc) (tr : List (Env × String)),
        tr.all (fun c => !succCall c) = true →
        (tr.foldl stepCall (initialState stored doc)).installed = false) ∧
    (∀ (st0 : St) (t1 t2 : List (Env × String)) (c : Env × String),
        succCall c = true →
        t2.all (fun c2 => !succCall c2) = true →
        ((t1 ++ c :: t2).foldl stepCall st0).lastDict = some (loadedPair c).1 ∧
        ((t1 ++ c :: t2).foldl stepCall st0).lastFallback =
          some (loadedPair c).2 ∧
        refreshArgs ((t1 ++ c :: t2).foldl stepCall st0) = loadedPair c) := by
  constructor
  · intro stored doc tr hall
    exact ((foldl_fail_preserve tr (initialState stored doc) hall).2.2).trans rfl
  · intro st0 t1 t2 c hc hall
    rw [List.foldl_append, List.foldl_cons]
    rcases foldl_fail_preserve t2 (stepCall (t1.foldl stepCall st0) c) hall
      with ⟨p1, p2, p3⟩
    unfold succCall at hc
    cases hb : tryBases c.1 (normLang c.2) bases with
    | none => rw [hb] at hc; exact absurd hc (by simp)
    | some d =>
      rw [hb] at hc
      rcases stepCall_succ (t1.foldl stepCall st0) c d hb hc with ⟨s1, s2⟩
      refine ⟨p1.trans s1, p2.trans s2, ?_⟩
      unfold refreshArgs
      rw [p1.trans s1, p2.trans s2]
      rcases loadedPair_truthy c with ⟨q1, q2⟩
      show (jsOr (loadedPair c).1 emptyObj, jsOr (loadedPair c).2 emptyObj) =
        loadedPair c
      rw [jsOr_of_truthy _ _ q1, jsOr_of_truthy _ _ q2]

/-- Witness for claim C2 at a concrete environment: requesting `"it"` with
only the Hungarian dictionary fetchable applies it as primary with an empty
fallback. -/
theorem claim2_witness :
    resultCalls (setLang envHuOnly stA "it") = [(huDict, emptyObj)] :=
  claim2_default_applied_as_primary envHuOnly stA "it" huDict rfl
    (by decide) rfl rfl rfl

/-- Witness for claim C4 at a concrete environment: requesting the
unsupported `"de"` behaves exactly like requesting the default. -/
theorem claim4_witness :
    setLang envHuOnly stA "de" = setLang envHuOnly stA "hu" ∧
    (resultState (setLang envHuOnly stA "de")).map (fun s => s.doc.docLang) =
      some DEFAULT_LANG :=
  ⟨(claim4_unsupported_normalized_to_default envHuOnly stA "de" rfl).1,
   (claim4_unsupported_normalized_to_default envHuOnly stA "de" rfl).2.1⟩

/-- Witness for claim C6 at a concrete document: an element whose three
markers all carry unresolved keys keeps its text, HTML and `title`
attribute. -/
theorem claim6_witness :
    ((applyTranslations huDict emptyObj doc6).elems.get? 0).map Elem.text =
      some "regi szoveg" ∧
    ((applyTranslations huDict emptyObj doc6).elems.get? 0).map Elem.innerHTML =
      some "regi html" ∧
    ((applyTranslations huDict emptyObj doc6).elems.get? 0).map
        (fun e => lookupAttr e.attrs "title") = some (some "regi cim") :=
  ⟨(claim6_unresolved_leaves_target_unchanged huDict emptyObj doc6 0 el6
      "title" rfl).1 rfl,
   (claim6_unresolved_leaves_target_unchanged huDict emptyObj doc6 0 el6
      "title" rfl).2.1 rfl,
   (claim6_unresolved_leaves_target_unchanged huDict emptyObj doc6 0 el6
      "title" rfl).2.2 rfl⟩

/-- Witness for the amended claim C7 at a concrete environment: with every
fetch failing, the switch to `"it"` returns without an apply call, having
only persisted the preference and run the UI update. -/
theorem claim7_witness :
    setLang envAllFail stA "it" =
      .ok ({ stA with
              stored := if envAllFail.storageOk then some (normLang "it")
                        else stA.stored,
              doc := updateLangUi (normLang "it") stA.doc }, []) :=
  claim7_total_failure_frame envAllFail stA "it" rfl rfl

/-- Witness for claim C8 at the attribute marker of spec test 6: the two
well-formed pairs are applied and the malformed piece is skipped. -/
theorem claim8_witness :
    ((applyTranslations huDict emptyObj doc8).elems.get? 0).map Elem.attrs =
      some [("data-i18n-attr",
              "placeholder:form.name; title:form.tooltip; malformed"),
            ("placeholder", "Nev"), ("title", "Tipp")] :=
  ((claim8_attr_binding_pairs huDict emptyObj doc8 0 el8 "x" rfl).1).trans rfl

/-- Witness for claim C9 at a concrete document: the text written for key
`greet` satisfies the written-values invariant, and the resolved value
`"hello"` is a trimmed-nonempty string found in the primary dictionary. -/
theorem claim9_witness :
    (((applyTranslations huDict emptyObj doc9).elems.get? 0).map Elem.text =
        some el9.text ∨
      ((applyTranslations huDict emptyObj doc9).elems.get? 0).map Elem.text =
        resolveAttrKey (resolve huDict emptyObj)
          (lookupAttr el9.attrs "data-i18n")) ∧
    (trimmedNonempty "hello" = true ∧
      (getByPath huDict "greet" = some (.str "hello") ∨
        getByPath emptyObj "greet" = some (.str "hello"))) :=
  ⟨(claim9_written_values_from_dictionaries huDict emptyObj doc9 0 el9
      "a" "greet" "hello" rfl).2.2.1,
   (claim9_written_values_from_dictionaries huDict emptyObj doc9 0 el9
      "a" "greet" "hello" rfl).2.2.2.2.2 rfl⟩

/-- Witness for claim C10 at concrete traces: a failing call installs no
global API, and a successful default-language call leaves its dictionary as
the recorded last-loaded primary. -/
theorem claim10_witness :
    (([(envAllFail, "hu")] : List (Env × String)).foldl stepCall
        (initialState none docA)).installed = false ∧
    (([(envHuOnly, "hu")] : List (Env × String)).foldl stepCall stA).lastDict =
      some huDict :=
  ⟨claim10_global_api_installation.1 none docA [(envAllFail, "hu")] rfl,
   ((claim10_global_api_installation.2 stA [] [] (envHuOnly, "hu") rfl rfl).1).trans
     rfl⟩

end I18n
